import Mathlib

/-!
Verification development for the station_core.py address-to-station pipeline.

Strings are modelled as lists of characters (code points), matching Python's
str semantics (len / indexing / comparison by code point).  Python floats are
modelled as exact rationals `PyFloat` (an integer numerator over a power-of-ten
denominator); every numeric literal handled by this program is decimal, and no
claim depends on binary floating-point rounding error.  Regular expressions
from the source are hand-compiled to equivalent deterministic scanners: each
pattern in the source uses character classes that make backtracking
deterministic, as noted at each definition.  `.` is modelled as "any
character" (the inputs reaching the regexes have had whitespace runs collapsed
or are assumed newline-free).
-/

/-- Python strings as lists of characters. -/
abbrev Str : Type := List Char

/-- The whitespace set of Python's str.strip / regex \s (Unicode whitespace). -/
def pyIsSpace (c : Char) : Bool :=
  c = ' ' || c = '\t' || c = '\n' || c.val = 11 || c.val = 12 || c = '\r' ||
  (28 ≤ c.val && c.val ≤ 31) || c.val = 0x85 || c.val = 0xa0 || c.val = 0x1680 ||
  (0x2000 ≤ c.val && c.val ≤ 0x200a) || c.val = 0x2028 || c.val = 0x2029 ||
  c.val = 0x202f || c.val = 0x205f || c.val = 0x3000

/-- ASCII digit test ([0-9]; \d is only applied to already-width-normalized text). -/
def isDigit (c : Char) : Bool := '0' ≤ c && c ≤ '9'

/-- The _ZEN2HAN translation table: full-width digits to ASCII digits and the
hyphen-like glyphs to the ASCII hyphen; all other characters unchanged. -/
def zen2han (c : Char) : Char :=
  if c = '０' then '0' else if c = '１' then '1' else if c = '２' then '2'
  else if c = '３' then '3' else if c = '４' then '4' else if c = '５' then '5'
  else if c = '６' then '6' else if c = '７' then '7' else if c = '８' then '8'
  else if c = '９' then '9'
  else if c = '－' || c = 'ー' || c = '−' || c = '‐' || c = '-' || c = '–' ||
          c = '—' || c = '―' then '-'
  else c

/-- Python str.strip(): drop Unicode whitespace from both ends. -/
def pyStrip (s : Str) : Str :=
  ((s.dropWhile pyIsSpace).reverse.dropWhile pyIsSpace).reverse

/-- normalize_text: (s or "").strip().translate(_ZEN2HAN). -/
def normalize_text (s : Str) : Str :=
  (pyStrip s).map zen2han

/-- One pass of re.sub(r"\s+", " ", s): each maximal whitespace run becomes
one space.  Structurally recursive on a fuel argument so the kernel can
evaluate it; each step consumes at least one character, so fuel equal to the
input length never runs out (the fuel-exhausted branch is unreachable then). -/
def collapseRunsF : Nat → Str → Str
  | _, [] => []
  | 0, s => s
  | fuel + 1, c :: cs =>
    if pyIsSpace c then ' ' :: collapseRunsF fuel (cs.dropWhile pyIsSpace)
    else c :: collapseRunsF fuel cs

/-- s = re.sub(r"\s+", " ", s).strip() from normalize_line_name. -/
def collapseWs (s : Str) : Str := pyStrip (collapseRunsF s.length s)

/-- Python str.replace(key, val): replace all non-overlapping occurrences,
scanning left to right, never rescanning inserted text.  Fuel-based structural
recursion (see collapseRunsF); the empty-key case never occurs in the source
tables and is modelled as the identity. -/
def replaceAllF (key val : Str) : Nat → Str → Str
  | _, [] => []
  | 0, s => s
  | fuel + 1, c :: cs =>
    match key with
    | [] => c :: cs
    | k0 :: ks =>
      if (k0 :: ks).isPrefixOf (c :: cs) then
        val ++ replaceAllF (k0 :: ks) val fuel (cs.drop ks.length)
      else c :: replaceAllF (k0 :: ks) val fuel cs

/-- Python str.replace(key, val) on the whole string. -/
def replaceAll (key val s : Str) : Str := replaceAllF key val s.length s

/-- Python substring test: sub in s. -/
def containsSub (sub : Str) : Str → Bool
  | [] => sub.isPrefixOf []
  | c :: cs => sub.isPrefixOf (c :: cs) || containsSub sub cs

/-! ## Exact decimal rationals standing in for Python floats -/

/-- A Python float value arising in this program: an exact decimal rational.
Every construction in the model keeps `den` a positive power of ten. -/
structure PyFloat where
  num : Int
  den : Nat
  deriving DecidableEq, Repr

/-- The rational value of a PyFloat (semantic lens used in theorem statements). -/
def PyFloat.toRat (q : PyFloat) : ℚ := (q.num : ℚ) / (q.den : ℚ)

/-- Comparison a < b by cross multiplication (denominators positive). -/
def PyFloat.lt (a b : PyFloat) : Bool := decide (a.num * (b.den : Int) < b.num * (a.den : Int))

/-- Comparison a <= b by cross multiplication (denominators positive). -/
def PyFloat.le (a b : PyFloat) : Bool := decide (a.num * (b.den : Int) ≤ b.num * (a.den : Int))

/-- Python min(a, b): b if b < a else a. -/
def pyMin (a b : PyFloat) : PyFloat := if PyFloat.lt b a then b else a

/-- Python round() on a float, to int: round half to even. -/
def pyRound (x : PyFloat) : Int :=
  let d : Int := (x.den : Int)
  let q := x.num.fdiv d
  let r := x.num - q * d
  if 2 * r < d then q
  else if d < 2 * r then q + 1
  else if q % 2 = 0 then q else q + 1

/-- int(math.ceil(a / b)) for integer a and positive integer b (exact). -/
def ceilDiv (a b : Int) : Int := -((-a).fdiv b)

/-! ## parse_distance_to_meters -/

/-- The runtime type of the distance field of a raw station record: absent
(None), a native numeric (an exact decimal m / 10^e), or a string. -/
inductive DistanceValue : Type where
  | null : DistanceValue
  | num (m : Int) (e : Nat) : DistanceValue
  | str (s : Str) : DistanceValue
  deriving DecidableEq, Repr

/-- Numeric value of a digit character. -/
def digitVal (c : Char) : Nat := c.toNat - 48

/-- Value of a list of ASCII digits, most significant first. -/
def digitsToNat (ds : Str) : Nat := ds.foldl (fun acc c => 10 * acc + digitVal c) 0

/-- The unit suffix matched by the distance regex. -/
inductive DistUnit : Type where
  | meters | kilometers
  deriving DecidableEq, Repr

/-- The regex ^([0-9]+(?:\.[0-9]+)?)\s*(km|m)?$ with IGNORECASE, hand-compiled.
All character classes involved (digits, dot, whitespace, unit letters) are
disjoint, so greedy matching is deterministic.  Returns the integer digits,
the fraction digits (possibly empty) and the unit (None defaults to meters at
the caller). -/
def distMatch (s : Str) : Option (Str × Str × Option DistUnit) :=
  let intD := s.takeWhile isDigit
  if intD = [] then none
  else
    let r1 := s.drop intD.length
    let fracPart : Option (Str × Str) :=
      match r1 with
      | '.' :: rest =>
        let f := rest.takeWhile isDigit
        if f = [] then none else some (f, rest.drop f.length)
      | _ => some ([], r1)
    match fracPart with
    | none => none
    | some (fracD, r2) =>
      let r3 := r2.dropWhile pyIsSpace
      match r3 with
      | [] => some (intD, fracD, none)
      | [c] => if c = 'm' || c = 'M' then some (intD, fracD, some .meters) else none
      | [c1, c2] =>
        if (c1 = 'k' || c1 = 'K') && (c2 = 'm' || c2 = 'M') then
          some (intD, fracD, some .kilometers)
        else none
      | _ => none

/-- parse_distance_to_meters: meters as an exact float, None meaning +infinity
(the non-finite result the aggregator filters out). -/
def parse_distance_to_meters (dv : DistanceValue) : Option PyFloat :=
  match dv with
  | .null => none
  | .num m e => some ⟨m, 10 ^ e⟩
  | .str s =>
    let s1 := replaceAll [','] [] (normalize_text s)
    let s2 := replaceAll "ｍ".data "m".data s1
    let s3 := replaceAll "ｋｍ".data "km".data s2
    let s4 := replaceAll "ＫＭ".data "km".data s3
    let s5 := replaceAll "Ｋm".data "km".data s4
    let s6 := replaceAll "㎞".data "km".data s5
    match distMatch s6 with
    | none => none
    | some (intD, fracD, unit) =>
      let base : PyFloat := ⟨(digitsToNat (intD ++ fracD) : Int), 10 ^ fracD.length⟩
      match unit with
      | some .kilometers => some ⟨base.num * 1000, base.den⟩
      | _ => some base

/-! ## normalize_line_name: tables -/

/-- LINE_NAME_OVERRIDES: final exact-match overrides, applied after the aliases. -/
def LINE_NAME_OVERRIDES : List (Str × Str) :=
  [("仙台市南北線".data, "地下鉄南北線".data),
   ("仙台市東西線".data, "地下鉄東西線".data),
   ("東京臨海高速鉄道りんかい線".data, "りんかい線".data),
   ("ゆりかもめ東京臨海新交通臨海線".data, "ゆりかもめ".data),
   ("東京臨海新交通臨海線".data, "ゆりかもめ".data)]

/-- CITY_SUBWAY_PREFIX (renamed here): the city-to-subway-brand folding table. -/
def CITY_SUBWAY_TABLE : List (Str × Str) :=
  [("札幌市".data, "地下鉄".data),
   ("仙台市".data, "地下鉄".data),
   ("横浜市".data, "地下鉄".data),
   ("名古屋市".data, "地下鉄".data),
   ("京都市".data, "地下鉄".data),
   ("神戸市".data, "地下鉄".data),
   ("福岡市".data, "地下鉄".data),
   ("大阪市".data, "大阪メトロ".data)]

/-- COMMON_REPLACES: literal substring replacements applied in table order. -/
def COMMON_REPLACES : List (Str × Str) :=
  [("ＪＲ".data, "JR".data),
   ("ＪＲ東日本".data, "JR東日本".data),
   ("ＪＲ西日本".data, "JR西日本".data),
   ("ＪＲ東海".data, "JR東海".data),
   ("ＪＲ九州".data, "JR九州".data),
   ("ＪＲ北海道".data, "JR北海道".data),
   ("ＪＲ四国".data, "JR四国".data),
   ("東京地下鉄".data, "東京メトロ".data),
   ("都営地下鉄".data, "都営".data),
   ("東京都交通局".data, "都営".data),
   ("大阪市高速電気軌道".data, "大阪メトロ".data),
   ("名古屋鉄道".data, "名鉄".data),
   ("近畿日本鉄道".data, "近鉄".data),
   ("京浜急行電鉄".data, "京急".data),
   ("小田急電鉄".data, "小田急".data),
   ("東武鉄道".data, "東武".data),
   ("西武鉄道".data, "西武".data),
   ("京王電鉄".data, "京王".data),
   ("相模鉄道".data, "相鉄".data),
   ("東京急行電鉄".data, "東急".data),
   ("東急電鉄".data, "東急".data),
   ("京成電鉄".data, "京成".data),
   ("南海電気鉄道".data, "南海".data),
   ("阪急電鉄".data, "阪急".data),
   ("阪神電気鉄道".data, "阪神".data),
   ("西日本鉄道".data, "西鉄".data),
   ("大阪高速鉄道".data, "大阪モノレール".data)]

/-- POPULAR_LINE_ALIASES: exact-match folding of well-known short names. -/
def POPULAR_LINE_ALIASES : List (Str × Str) :=
  [("りんかい線".data, "りんかい線".data),
   ("東京臨海高速鉄道りんかい線".data, "りんかい線".data),
   ("ゆりかもめ".data, "ゆりかもめ".data),
   ("ゆりかもめ東京臨海新交通臨海線".data, "ゆりかもめ".data),
   ("東京臨海新交通臨海線".data, "ゆりかもめ".data),
   ("日暮里・舎人ライナー".data, "日暮里・舎人ライナー".data),
   ("東京モノレール".data, "東京モノレール".data),
   ("大阪モノレール".data, "大阪モノレール".data)]

/-! ## normalize_line_name: hand-compiled regex steps -/

/-- Does a string match `.+線$` (at least one character, then 線 at the end)? -/
def restLine (r : Str) : Bool := decide (2 ≤ r.length) && (r.getLast? == some '線')

/-- Scanner for re.match(r"^(?P<city>.+?市)(?P<rest>.+線)$", s): the lazy
group takes the shortest prefix ending in 市 (with at least one character
before it) whose remainder matches `.+線$`; scanning 市 positions left to
right implements the lazy-quantifier backtracking order. -/
def cityScan (acc : Str) : Str → Option (Str × Str)
  | [] => none
  | c :: cs =>
    if c = '市' ∧ acc ≠ [] ∧ restLine cs then some (acc ++ [c], cs)
    else cityScan (acc ++ [c]) cs

/-- The city-subway folding step: fold 〇〇市◯◯線 into the table's brand when
the string has no 地下鉄 and the city is in the table. -/
def cityFoldStep (s : Str) : Str :=
  match cityScan [] s with
  | none => s
  | some (city, rest) =>
    if containsSub "地下鉄".data s = false then
      match CITY_SUBWAY_TABLE.lookup city with
      | some p => p ++ rest
      | none => s
    else s

/-- _TOEI_LINE_RE = ^(都営)(.+線)$: on a match, re-emit 都営 + group 2 (which
reassembles the original string unchanged). -/
def toeiStep (s : Str) : Str :=
  if ("都営".data).isPrefixOf s ∧ restLine (s.drop 2) then "都営".data ++ s.drop 2
  else s

/-- _METRO_LINE_RE = ^(東京メトロ)(.+線)$, analogous to toeiStep. -/
def metroStep (s : Str) : Str :=
  if ("東京メトロ".data).isPrefixOf s ∧ restLine (s.drop 5) then "東京メトロ".data ++ s.drop 5
  else s

/-- All splits s = pre ++ post with pre ending in 地下鉄 (and at least one
character before it) and post matching `.+線$`, in left-to-right order. -/
def subwaySplits (acc : Str) : Str → List (Str × Str)
  | [] => []
  | c :: cs =>
    let acc' := acc ++ [c]
    (if ("地下鉄".data).isSuffixOf acc' ∧ 4 ≤ acc'.length ∧ restLine cs then [(acc', cs)] else [])
      ++ subwaySplits acc' cs

/-- _SUBWAY_LINE_RE = ^(?P<p>.+地下鉄)(?P<rest>.+線)$ with a greedy first
group: take the rightmost valid split; on a match re-emit prefix ++ rest
(again reassembling the original string). -/
def subwayStep (s : Str) : Str :=
  match (subwaySplits [] s).getLast? with
  | some (p, r) => p ++ r
  | none => s

/-- POPULAR_LINE_ALIASES.get(s, s). -/
def aliasStep (s : Str) : Str := (POPULAR_LINE_ALIASES.lookup s).getD s

/-- LINE_NAME_OVERRIDES.get(s, s). -/
def overrideStep (s : Str) : Str := (LINE_NAME_OVERRIDES.lookup s).getD s

/-- After `(?:営)?地下鉄` in _CITY_SUBWAY_STRIP_RE: consume the optional 営
(tried first, as the regex engine does) then the literal 地下鉄, then match
`\s*(.+)$` and return the rest group.  The branch choice is deterministic
because 営 and 地 differ. -/
def stripTail (t : Str) : Option Str :=
  let afterSub : Option Str :=
    if ("営地下鉄".data).isPrefixOf t then some (t.drop 4)
    else if ("地下鉄".data).isPrefixOf t then some (t.drop 3)
    else none
  match afterSub with
  | none => none
  | some u =>
    let v := u.dropWhile pyIsSpace
    if v ≠ [] then some v
    else
      match u.getLast? with
      | some c => some [c]
      | none => none

/-- Scanner for _CITY_SUBWAY_STRIP_RE = ^(?P<city>.+?市)(?:営)?地下鉄\s*(?P<rest>.+)$:
lazy city group, scanning 市 positions left to right, at each trying the tail. -/
def stripScan (acc : Str) : Str → Option Str
  | [] => none
  | c :: cs =>
    if c = '市' ∧ acc ≠ [] then
      match stripTail cs with
      | some rest => some rest
      | none => stripScan (acc ++ [c]) cs
    else stripScan (acc ++ [c]) cs

/-- Final step of normalize_line_name: 〇〇市(営)地下鉄～ becomes 地下鉄～. -/
def stripCityStep (s : Str) : Str :=
  match stripScan [] s with
  | some rest => "地下鉄".data ++ rest
  | none => s

/-- The COMMON_REPLACES pass: literal replacements in table order, chaining. -/
def applyReplaces (s : Str) : Str :=
  COMMON_REPLACES.foldl (fun acc kv => replaceAll kv.1 kv.2 acc) s

/-- normalize_line_name(line) for a non-None argument (None is mapped to ""
at the call sites, matching the falsy check in the source). -/
def normalize_line_name (line : Str) : Str :=
  if line = [] then []
  else
    let s1 := collapseWs (normalize_text line)
    let s2 := applyReplaces s1
    let s3 := cityFoldStep s2
    let s4 := toeiStep s3
    let s5 := metroStep s4
    let s6 := subwayStep s5
    let s7 := aliasStep s6
    let s8 := overrideStep s7
    stripCityStep s8

/-! ## extract_postal_code7 -/

/-- Try the pattern 〒?\s*(\d{3})\s*[-]?\s*(\d{4}) anchored at the current
position; the character classes (〒, whitespace, digits, hyphen) are disjoint,
so the greedy quantifiers are deterministic.  Returns the two digit groups. -/
def postalHere (t : Str) : Option (Str × Str) :=
  let t1 := match t with
            | '〒' :: rest => rest
            | _ => t
  let t2 := t1.dropWhile pyIsSpace
  let d3 := t2.take 3
  if d3.length = 3 ∧ d3.all isDigit then
    let u := t2.drop 3
    let u1 := u.dropWhile pyIsSpace
    let u2 := match u1 with
              | '-' :: rest => rest
              | _ => u1
    let u3 := u2.dropWhile pyIsSpace
    let d4 := u3.take 4
    if d4.length = 4 ∧ d4.all isDigit then some (d3, d4) else none
  else none

/-- re.search: try the postal pattern at each position, left to right. -/
def postalScan : Str → Option (Str × Str)
  | [] => none
  | c :: cs =>
    match postalHere (c :: cs) with
    | some r => some r
    | none => postalScan cs

/-- extract_postal_code7: the first 3+4 digit group in the normalized address,
concatenated, or None. -/
def extract_postal_code7 (address : Str) : Option Str :=
  (postalScan (normalize_text address)).map (fun p => p.1 ++ p.2)

/-! ## Geocoder data model -/

/-- The coordinate field of a location candidate as delivered by the API:
absent (KeyError on ["x"]), present but not convertible by float() (None or a
non-numeric string), or convertible to the exact decimal m / 10^e. -/
inductive CoordField : Type where
  | missing : CoordField
  | bad : CoordField
  | val (m : Int) (e : Nat) : CoordField
  deriving DecidableEq, Repr

/-- A location candidate from the geocoding API (§ LocationCandidate).
None fields model absent keys (loc.get(k) is None). -/
structure Loc where
  prefecture : Option Str := none
  city : Option Str := none
  town : Option Str := none
  postal : Option Str := none
  x : CoordField := .missing
  y : CoordField := .missing
  deriving DecidableEq, Repr

/-- float(best["x"]), float(best["y"]): both fields must be convertible. -/
def locToXY (l : Loc) : Option (PyFloat × PyFloat) :=
  match l.x, l.y with
  | .val mx ex, .val my ey => some (⟨mx, 10 ^ ex⟩, ⟨my, 10 ^ ey⟩)
  | _, _ => none

/-! ## pick_best_location -/

/-- One text field's contribution to the match count: 1 when the field is a
truthy string whose normalization is a substring of the normalized address. -/
def fieldMatch (addr : Str) (v : Option Str) : Nat :=
  match v with
  | some s => if s ≠ [] ∧ containsSub (normalize_text s) addr then 1 else 0
  | none => 0

/-- len(str(loc.get(k, ""))) for a text field. -/
def fieldLen (v : Option Str) : Nat := (v.getD []).length

/-- The score tuple (match count + postal bonus, combined text length). -/
def locScore (rawAddr : Str) (l : Loc) : Nat × Nat :=
  let addr := normalize_text rawAddr
  let s := fieldMatch addr l.prefecture + fieldMatch addr l.city + fieldMatch addr l.town
  let postalBonus : Nat := match l.postal with
                           | some p => if p ≠ [] then 1 else 0
                           | none => 0
  (s + postalBonus, fieldLen l.prefecture + fieldLen l.city + fieldLen l.town)

/-- Strict lexicographic > on score tuples (Python tuple comparison). -/
def pairGt (a b : Nat × Nat) : Bool :=
  decide (b.1 < a.1) || (a.1 == b.1 && decide (b.2 < a.2))

/-- Python max(locations, key=score): scan left to right, replacing the
current best only on a strictly greater key, so the first maximal-score
candidate wins ties.  None on an empty list (where the source would raise;
every call site guards non-emptiness). -/
def pick_best_location (locs : List Loc) (rawAddr : Str) : Option Loc :=
  match locs with
  | [] => none
  | x :: xs =>
    some (xs.foldl (fun best c => if pairGt (locScore rawAddr c) (locScore rawAddr best) then c else best) x)

/-! ## Geocoder -/

/-- The matching parameter of the suggest endpoint. -/
inductive MatchMode : Type where
  | exactly | like
  deriving DecidableEq, Repr

/-- A raw station record from the station-lookup API. -/
structure RawStation where
  name : Option Str := none
  prefecture : Option Str := none
  line : Option Str := none
  distance : DistanceValue := .null
  deriving DecidableEq, Repr

/-- The two external HTTP services, abstracted as oracles: each call returns
either the retried-and-wrapped failure raised by _get_json (which propagates)
or the decoded candidate list (response.location / response.station, already
coerced to a list, defaulting to empty). -/
structure Env where
  postal : Str → Except Str (List Loc)
  suggest : Str → MatchMode → Except Str (List Loc)
  stations : PyFloat → PyFloat → Except Str (List RawStation)

/-- The error message raised when the postal branch picks a candidate whose
coordinates cannot be converted. -/
def postalCoordErr : Str := "郵便番号検索の結果から緯度経度を取得できませんでした。".data

/-- The error message raised after every keyword strategy is exhausted. -/
def geocodeFailErr : Str := "住所から緯度経度を取得できませんでした（郵便番号7桁付きで試すと改善します）。".data

/-- re.sub(r"〒?\s*\d{3}[-]?\d{4}", "", addr): match the (deterministic)
pattern at this position and return the number of characters consumed. -/
def subPostalHere (t : Str) : Option Nat :=
  let n0 : Nat := match t with
                  | '〒' :: _ => 1
                  | _ => 0
  let t1 := t.drop n0
  let w := (t1.takeWhile pyIsSpace).length
  let t2 := t1.drop w
  let d3 := t2.take 3
  if d3.length = 3 ∧ d3.all isDigit then
    let t3 := t2.drop 3
    let nh : Nat := match t3 with
                    | '-' :: _ => 1
                    | _ => 0
    let t4 := t3.drop nh
    let d4 := t4.take 4
    if d4.length = 4 ∧ d4.all isDigit then some (n0 + w + 3 + nh + 4) else none
  else none

/-- re.sub of the postal pattern with "": delete every non-overlapping match,
scanning left to right and continuing after each match. -/
def subPostalF : Nat → Str → Str
  | _, [] => []
  | 0, s => s
  | fuel + 1, c :: cs =>
    match subPostalHere (c :: cs) with
    | some n => subPostalF fuel ((c :: cs).drop n)
    | none => c :: subPostalF fuel cs

/-- The postal-code-stripped keyword base (addr in the source after its
re.sub). -/
def subPostal (s : Str) : Str := subPostalF s.length s

/-- re.sub(r"[0-9\-]+.*$", "", addr): everything from the first digit or
hyphen onward is removed. -/
def stripFromDigits (s : Str) : Str :=
  s.takeWhile (fun c => !(isDigit c || c = '-'))

/-- Is c in the class [一二三四五六七八九十〇零0-9]? -/
def isChomeChar (c : Char) : Bool :=
  isDigit c || c = '一' || c = '二' || c = '三' || c = '四' || c = '五' ||
  c = '六' || c = '七' || c = '八' || c = '九' || c = '十' || c = '〇' || c = '零'

/-- re.sub(r"[一二三四五六七八九十〇零0-9]+丁目.*$", "", addr): truncate at
the first numeral run that is immediately followed by 丁目 (the greedy run
must reach 丁目 since 丁 is not in the numeral class, and a match inside a
run succeeds exactly when the match at the run's start does). -/
def chomeSub : Str → Str
  | [] => []
  | c :: cs =>
    if isChomeChar c then
      let run := (c :: cs).takeWhile isChomeChar
      if ("丁目".data).isPrefixOf ((c :: cs).drop run.length) then []
      else c :: chomeSub cs
    else c :: chomeSub cs

/-- One suggest query: the `if locs:` guard, scoring and float() conversion;
a conversion failure (except-continue in the source) yields none. -/
def tryOneSuggest (env : Env) (rawAddr kw : Str) (mode : MatchMode) :
    Except Str (Option (PyFloat × PyFloat)) :=
  match env.suggest kw mode with
  | .error e => .error e
  | .ok locs =>
    .ok (match pick_best_location locs rawAddr with
         | some best => locToXY best
         | none => none)

/-- One keyword of the candidate loop: strip, length-guard, then the exact
and like matching modes in order. -/
def tryKeyword (env : Env) (rawAddr kw0 : Str) :
    Except Str (Option (PyFloat × PyFloat)) :=
  let kw := pyStrip kw0
  if kw.length < 2 then .ok none
  else
    match tryOneSuggest env rawAddr kw .exactly with
    | .error e => .error e
    | .ok (some xy) => .ok (some xy)
    | .ok none =>
      match tryOneSuggest env rawAddr kw .like with
      | .error e => .error e
      | .ok (some xy) => .ok (some xy)
      | .ok none => .ok none

/-- The keyword-suggestion phase of geocode_address_to_xy: derive the three
keyword variants from the normalized, postal-stripped address and try each in
order, failing with the final geocode error when all are exhausted. -/
def suggestPhase (env : Env) (rawAddr : Str) : Except Str (PyFloat × PyFloat) :=
  let addr0 := normalize_text rawAddr
  let addr := subPostal addr0
  let addrNoDigits := stripFromDigits addr
  let addrNoChome := chomeSub addr
  let step (kw : Str) (next : Except Str (PyFloat × PyFloat)) :
      Except Str (PyFloat × PyFloat) :=
    match tryKeyword env rawAddr kw with
    | .error e => .error e
    | .ok (some xy) => .ok xy
    | .ok none => next
  step addrNoDigits (step addrNoChome (step addr (.error geocodeFailErr)))

/-- geocode_address_to_xy: postal lookup first (hard-failing when the chosen
candidate has unusable coordinates), otherwise the keyword-suggestion phase. -/
def geocode_address_to_xy (env : Env) (rawAddr : Str) : Except Str (PyFloat × PyFloat) :=
  match extract_postal_code7 rawAddr with
  | some postal7 =>
    match env.postal postal7 with
    | .error e => .error e
    | .ok locs =>
      match pick_best_location locs rawAddr with
      | some best =>
        match locToXY best with
        | some xy => .ok xy
        | none => .error postalCoordErr
      | none => suggestPhase env rawAddr
  | none => suggestPhase env rawAddr

/-! ## ResilientApiClient: _get_json retry loop -/

/-- API_RETRY_COUNT: additional retries after the first attempt. -/
def API_RETRY_COUNT : Nat := 2

/-- API_RETRY_BACKOFF_SEC = 0.6, exact. -/
def API_RETRY_BACKOFF_SEC : PyFloat := ⟨6, 10⟩

/-- The sleep before retrying after a failed attempt:
API_RETRY_BACKOFF_SEC * (2 ** (attempt - 1)). -/
def backoffDelay (attempt : Nat) : PyFloat :=
  ⟨API_RETRY_BACKOFF_SEC.num * 2 ^ (attempt - 1), API_RETRY_BACKOFF_SEC.den⟩

/-- The wrapped message of the RuntimeError raised after the final attempt. -/
def apiFailMsg (url : Str) : Str := "API呼び出しに失敗しました: ".data ++ url

/-- The observable behaviour of one _get_json call: its outcome (the wrapped
error carries the message and the cause, i.e. the last underlying failure),
the sleeps performed between attempts, and how many attempts were made. -/
structure CallTrace (α : Type) where
  result : Except (Str × Str) α
  sleeps : List PyFloat
  attemptsMade : Nat
  deriving Repr

/-- The retry loop of _get_json.  The body of one attempt (HTTP GET, status
check, JSON decode, error-field classification) is abstracted as an oracle
from the attempt number to that attempt's outcome; the loop structure, sleep
sequence, attempt count and final wrapping follow the source.  Fuel counts the
remaining attempts (total - attempt + 1), so the zero case is unreachable from
the wrapper; it mirrors the unreachable trailing raise of the source. -/
def getJsonLoop {α : Type} (url : Str) (oracle : Nat → Except Str α) (total : Nat) :
    Nat → Nat → List PyFloat → CallTrace α
  | 0, attempt, sleeps => ⟨.error (apiFailMsg url, []), sleeps, attempt - 1⟩
  | fuel + 1, attempt, sleeps =>
    match oracle attempt with
    | .ok d => ⟨.ok d, sleeps, attempt⟩
    | .error e =>
      if attempt < total then
        getJsonLoop url oracle total fuel (attempt + 1) (sleeps ++ [backoffDelay attempt])
      else ⟨.error (apiFailMsg url, e), sleeps, attempt⟩

/-- _get_json with its attempt body abstracted: total attempts are
1 + API_RETRY_COUNT, numbered from 1. -/
def _get_json {α : Type} (url : Str) (oracle : Nat → Except Str α) : CallTrace α :=
  getJsonLoop url oracle (1 + API_RETRY_COUNT) (1 + API_RETRY_COUNT) 1 []

/-! ## Station aggregation (find_walkable_stations) -/

/-- WALK_METERS_PER_MIN = 80. -/
def WALK_METERS_PER_MIN : Int := 80

/-- The pipeline's output unit. -/
structure StationResult where
  station_name : Str
  lines : List Str
  walk_minutes : Int
  distance_m : Int
  deriving DecidableEq, Repr

/-- Lexicographic code-point comparison of Python strings (a <= b). -/
def strLe : Str → Str → Bool
  | [], _ => true
  | _ :: _, [] => false
  | a :: as, b :: bs =>
    if a.toNat < b.toNat then true
    else if a.toNat = b.toNat then strLe as bs
    else false

/-- The sort key comparison (walk_minutes, distance_m, station_name),
ascending lexicographically. -/
def resLe (a b : StationResult) : Bool :=
  if a.walk_minutes < b.walk_minutes then true
  else if a.walk_minutes = b.walk_minutes then
    if a.distance_m < b.distance_m then true
    else if a.distance_m = b.distance_m then strLe a.station_name b.station_name
    else false
  else false

/-- Stable insertion of an element into a sorted list: the new element goes
before the first existing element it compares <= to. -/
def pyInsert {α : Type} (le : α → α → Bool) (a : α) : List α → List α
  | [] => [a]
  | b :: bs => if le a b then a :: b :: bs else b :: pyInsert le a bs

/-- A stable ascending sort (insertion sort).  Python's list.sort / sorted is
also a stable ascending sort, and any two stable sorts under a total preorder
agree, so this models both sorted() on the line labels and results.sort(). -/
def pySort {α : Type} (le : α → α → Bool) : List α → List α
  | [] => []
  | a :: as => pyInsert le a (pySort le as)

/-- Python list slicing l[:n] for an int n (negative n counts from the end). -/
def pySlice {α : Type} (n : Int) (l : List α) : List α :=
  if 0 ≤ n then l.take n.toNat else l.take (l.length - (-n).toNat)

/-- One group of the aggregation dict: name, prefecture, the set of line
labels (modelled as a duplicate-free list in insertion order; only its sorted
form is ever emitted) and the minimum distance seen. -/
structure StationGroup where
  name : Str
  pref : Str
  lines : List Str
  minDist : PyFloat
  deriving DecidableEq, Repr

instance : Inhabited StationGroup := ⟨⟨[], [], [], ⟨0, 1⟩⟩⟩

/-- set.add. -/
def insertLine (ls : List Str) (l : Str) : List Str :=
  if l ∈ ls then ls else ls ++ [l]

/-- Update the grouping dict for one surviving record: insertion-ordered
association list keyed by (name, prefecture); a fresh key is appended at the
end (dict insertion order), an existing group unions the line and takes the
distance minimum.  Creating a fresh group and immediately adding the line and
min(d, d) is collapsed into the appended entry. -/
def upsertGroup (key : Str × Str) (line : Str) (d : PyFloat) :
    List ((Str × Str) × StationGroup) → List ((Str × Str) × StationGroup)
  | [] => [(key, ⟨key.1, key.2, [line], d⟩)]
  | kg :: rest =>
    if kg.1 = key then
      (kg.1, ⟨kg.2.name, kg.2.pref, insertLine kg.2.lines line, pyMin kg.2.minDist d⟩) :: rest
    else kg :: upsertGroup key line d rest

/-- The grouping loop of find_walkable_stations: resolve each record's name,
prefecture (default ""), normalized line and parsed distance, drop records
with a falsy name or line or a non-finite distance, and fold the rest into
the insertion-ordered grouping dict. -/
def recordStep (acc : List ((Str × Str) × StationGroup)) (r : RawStation) :
    List ((Str × Str) × StationGroup) :=
  match r.name with
  | none => acc
  | some nm =>
    let pref := r.prefecture.getD []
    let line := match r.line with
                | none => []
                | some l => normalize_line_name l
    if nm = [] ∨ line = [] then acc
    else
      match parse_distance_to_meters r.distance with
      | none => acc
      | some d => upsertGroup (nm, pref) line d acc

/-- The grouping dict after the whole record loop. -/
def groupedList (records : List RawStation) : List ((Str × Str) × StationGroup) :=
  records.foldl recordStep []

/-- The emission loop, instrumented with the group key so that identity
uniqueness can be stated: round the minimum distance, keep groups within the
walking budget, and build the StationResult (sorted lines, ceil walk time). -/
def emitKeyed (limit : Int) (gs : List ((Str × Str) × StationGroup)) :
    List ((Str × Str) × StationResult) :=
  gs.filterMap (fun kg =>
    let d := pyRound kg.2.minDist
    if d ≤ limit then
      some (kg.1, ⟨kg.2.name, pySort strLe kg.2.lines, ceilDiv d WALK_METERS_PER_MIN, d⟩)
    else none)

/-- Lines 407-443 of the source: the pure aggregation from the raw station
records to the sorted, truncated results (the emitted results list is the
second projection of emitKeyed). -/
def aggregateStations (records : List RawStation) (maxWalkMin maxCandidates : Int) :
    List StationResult :=
  let limit := maxWalkMin * WALK_METERS_PER_MIN
  let results := (emitKeyed limit (groupedList records)).map Prod.snd
  pySlice maxCandidates (pySort resLe results)

/-- find_walkable_stations: input validation (before any network call), then
geocoding, then the station lookup, then the pure aggregation. -/
def find_walkable_stations (env : Env) (rawAddr : Str) (maxWalkMin maxCandidates : Int) :
    Except Str (List StationResult) :=
  if pyStrip rawAddr = [] then .error "住所が空です。".data
  else if maxWalkMin ≤ 0 then .error "徒歩上限は1以上を指定してください。".data
  else if maxCandidates ≤ 0 then .error "表示件数は1以上を指定してください。".data
  else
    match geocode_address_to_xy env rawAddr with
    | .error e => .error e
    | .ok (x, y) =>
      match env.stations x y with
      | .error e => .error e
      | .ok raw => .ok (aggregateStations raw maxWalkMin maxCandidates)

/-! ## Claim theorems -/

/-- C10: parse_distance_to_meters satisfies the five reference equalities:
"2.6km" parses to 2600.0 meters, "320m" and "320" to 320.0, an absent value
and "abc" to positive infinity (modelled as none); the function is total by
construction. -/
theorem C10_parse_distance_reference_values :
    (parse_distance_to_meters (.str "2.6km".data)).map PyFloat.toRat = some 2600 ∧
    (parse_distance_to_meters (.str "320m".data)).map PyFloat.toRat = some 320 ∧
    (parse_distance_to_meters (.str "320".data)).map PyFloat.toRat = some 320 ∧
    parse_distance_to_meters .null = none ∧
    parse_distance_to_meters (.str "abc".data) = none := by
  have h1 : parse_distance_to_meters (.str "2.6km".data) = some ⟨26000, 10⟩ := by decide
  have h2 : parse_distance_to_meters (.str "320m".data) = some ⟨320, 1⟩ := by decide
  have h3 : parse_distance_to_meters (.str "320".data) = some ⟨320, 1⟩ := by decide
  refine ⟨?_, ?_, ?_, rfl, by decide⟩
  · rw [h1]; simp [PyFloat.toRat]; norm_num
  · rw [h2]; simp [PyFloat.toRat]
  · rw [h3]; simp [PyFloat.toRat]

/-- C6: when every attempt fails, _get_json makes exactly 1 + API_RETRY_COUNT
= 3 attempts, sleeps between consecutive attempts for the strictly increasing
durations 0.6 * 2^(attempt-1) (so two sleeps, none after the final attempt),
and raises a single wrapped error whose message names the URL and whose cause
is the last underlying failure. -/
theorem C6_get_json_retry_behavior {α : Type} (url : Str) (oracle : Nat → Except Str α)
    (e1 e2 e3 : Str) (h1 : oracle 1 = .error e1) (h2 : oracle 2 = .error e2)
    (h3 : oracle 3 = .error e3) :
    _get_json url oracle =
      ⟨.error (apiFailMsg url, e3), [backoffDelay 1, backoffDelay 2], 3⟩ ∧
    (backoffDelay 1).toRat = 3 / 5 ∧ (backoffDelay 2).toRat = 6 / 5 ∧
    (backoffDelay 1).toRat < (backoffDelay 2).toRat := by
  refine ⟨?_, ?_, ?_, ?_⟩
  · show getJsonLoop url oracle (1 + API_RETRY_COUNT) (1 + API_RETRY_COUNT) 1 [] = _
    norm_num [API_RETRY_COUNT]
    rw [show (3 : Nat) = 2 + 1 from rfl, getJsonLoop, h1]
    norm_num
    rw [show (2 : Nat) = 1 + 1 from rfl, getJsonLoop, h2]
    norm_num
    rw [show (1 : Nat) = 0 + 1 from rfl, getJsonLoop, h3]
    norm_num
  · norm_num [backoffDelay, API_RETRY_BACKOFF_SEC, PyFloat.toRat]
  · norm_num [backoffDelay, API_RETRY_BACKOFF_SEC, PyFloat.toRat]
  · norm_num [backoffDelay, API_RETRY_BACKOFF_SEC, PyFloat.toRat]

/-- Witness for C6: a concrete oracle failing on every attempt. -/
theorem C6_get_json_retry_behavior_witness :
    _get_json (α := Unit) "u".data (fun _ => .error "boom".data) =
      ⟨.error (apiFailMsg "u".data, "boom".data),
       [backoffDelay 1, backoffDelay 2], 3⟩ ∧
    (backoffDelay 1).toRat = 3 / 5 ∧ (backoffDelay 2).toRat = 6 / 5 ∧
    (backoffDelay 1).toRat < (backoffDelay 2).toRat :=
  C6_get_json_retry_behavior "u".data (fun _ => .error "boom".data)
    "boom".data "boom".data "boom".data rfl rfl rfl

/-- C9: find_walkable_stations fails fast on invalid input, with a message
naming the violated constraint, before any network call: the result does not
depend on the environment (so no network call and no retry can have
happened), and the empty-address, walk-bound and candidate-bound checks fire
in that order. -/
theorem C9_input_validation_fails_fast (env env' : Env) (rawAddr : Str) (mw mc : Int) :
    (pyStrip rawAddr = [] →
      find_walkable_stations env rawAddr mw mc = .error "住所が空です。".data) ∧
    (pyStrip rawAddr ≠ [] → mw ≤ 0 →
      find_walkable_stations env rawAddr mw mc = .error "徒歩上限は1以上を指定してください。".data) ∧
    (pyStrip rawAddr ≠ [] → 0 < mw → mc ≤ 0 →
      find_walkable_stations env rawAddr mw mc = .error "表示件数は1以上を指定してください。".data) ∧
    ((pyStrip rawAddr = [] ∨ mw ≤ 0 ∨ mc ≤ 0) →
      find_walkable_stations env rawAddr mw mc = find_walkable_stations env' rawAddr mw mc) := by
  refine ⟨?_, ?_, ?_, ?_⟩
  · intro h; simp [find_walkable_stations, h]
  · intro h hmw; simp [find_walkable_stations, h, hmw]
  · intro h hmw hmc
    have : ¬ mw ≤ 0 := by omega
    simp [find_walkable_stations, h, this, hmc]
  · rintro (h | h | h)
    · simp [find_walkable_stations, h]
    · by_cases ha : pyStrip rawAddr = [] <;> simp [find_walkable_stations, ha, h]
    · by_cases ha : pyStrip rawAddr = [] <;> by_cases hw : mw ≤ 0 <;>
        simp [find_walkable_stations, ha, hw, h]

/-- Witness for C9: the empty address fails with the empty-address message
under a trivial environment. -/
theorem C9_input_validation_fails_fast_witness :
    find_walkable_stations
      ⟨fun _ => .ok [], fun _ _ => .ok [], fun _ _ => .ok []⟩ [] 30 3 =
      .error "住所が空です。".data :=
  (C9_input_validation_fails_fast
    ⟨fun _ => .ok [], fun _ _ => .ok [], fun _ _ => .ok []⟩
    ⟨fun _ => .ok [], fun _ _ => .ok [], fun _ _ => .ok []⟩ [] 30 3).1 rfl

/-! ## pick_best_location: first-maximum semantics -/

/-- Arithmetic characterization of the lexicographic tuple comparison. -/
theorem pairGt_iff (a b : Nat × Nat) :
    pairGt a b = true ↔ (b.1 < a.1 ∨ (a.1 = b.1 ∧ b.2 < a.2)) := by
  simp [pairGt, Bool.or_eq_true, Bool.and_eq_true, beq_iff_eq, decide_eq_true_eq]

/-- The scan at the heart of pick_best_location (max with a strictly-greater
test, so the incumbent survives ties). -/
def scanBest (addr : Str) (x : Loc) (xs : List Loc) : Loc :=
  xs.foldl (fun best c => if pairGt (locScore addr c) (locScore addr best) then c else best) x

/-- pick_best_location on a non-empty list is that scan. -/
theorem pick_best_eq_scanBest (x : Loc) (xs : List Loc) (addr : Str) :
    pick_best_location (x :: xs) addr = some (scanBest addr x xs) := rfl

theorem scanBest_nil (addr : Str) (x : Loc) : scanBest addr x [] = x := rfl

theorem scanBest_cons (addr : Str) (x c : Loc) (cs : List Loc) :
    scanBest addr x (c :: cs) =
      scanBest addr (if pairGt (locScore addr c) (locScore addr x) then c else x) cs := rfl

/-- The scan returns the first candidate attaining the greatest score: it
occurs in the list, no candidate scores strictly higher, and every candidate
scanned before it scores strictly lower. -/
theorem scanBest_first_max (addr : Str) (xs : List Loc) (x : Loc) :
    ∃ pre post,
      x :: xs = pre ++ scanBest addr x xs :: post ∧
      (∀ c ∈ x :: xs,
        pairGt (locScore addr c) (locScore addr (scanBest addr x xs)) = false) ∧
      (∀ c ∈ pre,
        pairGt (locScore addr (scanBest addr x xs)) (locScore addr c) = true) := by
  induction xs generalizing x with
  | nil =>
    refine ⟨[], [], by simp [scanBest_nil], ?_, by simp⟩
    intro c hc
    simp only [List.mem_singleton] at hc
    subst hc
    rw [scanBest_nil, Bool.eq_false_iff]
    intro h
    rw [pairGt_iff] at h
    omega
  | cons c cs ih =>
    by_cases hcx : pairGt (locScore addr c) (locScore addr x) = true
    · -- the scan replaces x by c
      rw [scanBest_cons, if_pos hcx]
      obtain ⟨pre', post', heq, hmax, hpre⟩ := ih c
      refine ⟨x :: pre', post', by rw [List.cons_append, ← heq], ?_, ?_⟩
      · intro e he
        rcases List.mem_cons.mp he with he | he
        · subst he
          have h1 : pairGt (locScore addr c) (locScore addr (scanBest addr c cs)) = false :=
            hmax c (List.mem_cons_self c cs)
          rw [Bool.eq_false_iff]
          intro h2
          rw [pairGt_iff] at hcx h2
          have h1' : ¬ _ := (Bool.eq_false_iff.mp h1) ∘ (pairGt_iff _ _).mpr
          omega
        · exact hmax e he
      · intro e he
        rcases List.mem_cons.mp he with he | he
        · subst he
          have h1 : pairGt (locScore addr c) (locScore addr (scanBest addr c cs)) = false :=
            hmax c (List.mem_cons_self c cs)
          rw [pairGt_iff]
          have h1' : ¬ _ := (Bool.eq_false_iff.mp h1) ∘ (pairGt_iff _ _).mpr
          rw [pairGt_iff] at hcx
          omega
        · exact hpre e he
    · -- the scan keeps x
      rw [scanBest_cons, if_neg hcx]
      obtain ⟨pre', post', heq, hmax, hpre⟩ := ih x
      rcases pre' with _ | ⟨p0, ps⟩
      · rw [List.nil_append] at heq
        injection heq with hx hcs
        refine ⟨[], c :: post', ?_, ?_, by simp⟩
        · rw [List.nil_append, ← hx, ← hcs]
        · intro e he
          rcases List.mem_cons.mp he with he | he
          · rw [he]; exact hmax x (List.mem_cons_self x cs)
          rcases List.mem_cons.mp he with he | he
          · subst he; rw [← hx]; simpa using hcx
          · exact hmax e (List.mem_cons_of_mem x he)
      · rw [List.cons_append] at heq
        injection heq with hx hcs
        have hresx : pairGt (locScore addr (scanBest addr x cs)) (locScore addr x) = true := by
          have h := hpre p0 (List.mem_cons_self p0 ps)
          rw [← hx] at h
          exact h
        have hcx' : ¬ _ := hcx ∘ (pairGt_iff _ _).mpr
        refine ⟨x :: c :: ps, post', ?_, ?_, ?_⟩
        · conv_lhs => rw [hcs]
          simp
        · intro e he
          rcases List.mem_cons.mp he with he | he
          · rw [he]; exact hmax x (List.mem_cons_self x cs)
          rcases List.mem_cons.mp he with he | he
          · subst he
            rw [Bool.eq_false_iff]
            intro h2
            rw [pairGt_iff] at h2 hresx
            omega
          · exact hmax e (List.mem_cons_of_mem x he)
        · intro e he
          rcases List.mem_cons.mp he with he | he
          · subst he; exact hresx
          rcases List.mem_cons.mp he with he | he
          · subst he
            rw [pairGt_iff]
            rw [pairGt_iff] at hresx
            omega
          · exact hpre e (List.mem_cons_of_mem p0 he)

/-- C5 counterexample: two candidates with equal (and maximal) score tuples;
the claim says the one encountered last is returned, but pick_best_location
returns the first (Python's max keeps the incumbent on ties). -/
theorem C5_tie_counterexample :
    pick_best_location
      [⟨none, none, none, none, .val 1 0, .missing⟩,
       ⟨none, none, none, none, .val 2 0, .missing⟩] "東京".data =
      some ⟨none, none, none, none, .val 1 0, .missing⟩ ∧
    locScore "東京".data ⟨none, none, none, none, .val 1 0, .missing⟩ =
      locScore "東京".data ⟨none, none, none, none, .val 2 0, .missing⟩ ∧
    (⟨none, none, none, none, .val 1 0, .missing⟩ : Loc) ≠
      ⟨none, none, none, none, .val 2 0, .missing⟩ := by
  refine ⟨rfl, rfl, ?_⟩
  decide

/-- C5 (amended): for every non-empty candidate list, pick_best_location
returns a candidate whose score tuple (match count with postal bonus,
combined field length) is lexicographically greatest; when several candidates
share the greatest tuple, the one encountered FIRST in scan order is returned
(every candidate scanned before the result scores strictly lower). -/
theorem C5_pick_best_first_maximum (x : Loc) (xs : List Loc) (rawAddr : Str) :
    ∃ res pre post,
      pick_best_location (x :: xs) rawAddr = some res ∧
      x :: xs = pre ++ res :: post ∧
      (∀ c ∈ x :: xs, pairGt (locScore rawAddr c) (locScore rawAddr res) = false) ∧
      (∀ c ∈ pre, pairGt (locScore rawAddr res) (locScore rawAddr c) = true) := by
  obtain ⟨pre, post, heq, hmax, hpre⟩ := scanBest_first_max rawAddr xs x
  exact ⟨scanBest rawAddr x xs, pre, post, pick_best_eq_scanBest x xs rawAddr, heq, hmax, hpre⟩

/-! ## C4: geocoder postal branch vs keyword fallback -/

/-- A postal lookup answer whose chosen candidate has no usable coordinates. -/
def locNoXY : Loc := ⟨some "宮城県".data, none, none, some "9800021".data, .missing, .missing⟩

/-- A suggest answer with perfectly usable coordinates. -/
def locGoodXY : Loc := ⟨none, none, none, none, .val 140 0, .val 38 0⟩

/-- An environment where the postal lookup returns one coordinate-less
candidate while every keyword suggestion returns a usable one. -/
def envPostalBad : Env :=
  ⟨fun _ => .ok [locNoXY], fun _ _ => .ok [locGoodXY], fun _ _ => .ok []⟩

/-- The address used for the C4 counterexample (it carries a postal code). -/
def addrC4 : Str := "〒980-0021仙台市青葉区".data

/-- C4 counterexample: the postal lookup returns a candidate, the chosen
candidate lacks usable coordinate fields, and the geocoder fails immediately
with the postal-specific error instead of falling through — even though the
keyword-suggestion phase would have succeeded in the same environment. -/
theorem C4_postal_bad_coords_counterexample :
    geocode_address_to_xy envPostalBad addrC4 = .error postalCoordErr ∧
    suggestPhase envPostalBad addrC4 = .ok (⟨140, 1⟩, ⟨38, 1⟩) := by
  constructor
  · rfl
  · rfl

/-- C4 (amended): when the postal lookup returns at least one candidate and
the chosen candidate lacks usable coordinate fields, the geocoder raises the
postal-specific error immediately, without consulting the keyword strategies;
it is only when the postal lookup returns no candidates (or no postal code
can be extracted) that it falls through to the keyword-suggestion phase, and
that phase fails only after all keyword variants and both matching modes are
exhausted. -/
theorem C4_postal_branch_behaviour :
    (∀ (env : Env) (rawAddr p : Str) (locs : List Loc) (best : Loc),
      extract_postal_code7 rawAddr = some p →
      env.postal p = .ok locs →
      pick_best_location locs rawAddr = some best →
      locToXY best = none →
      geocode_address_to_xy env rawAddr = .error postalCoordErr) ∧
    (∀ (env : Env) (rawAddr p : Str),
      extract_postal_code7 rawAddr = some p →
      env.postal p = .ok [] →
      geocode_address_to_xy env rawAddr = suggestPhase env rawAddr) ∧
    (∀ (env : Env) (rawAddr : Str),
      (∀ kw mode, env.suggest kw mode = .ok []) →
      suggestPhase env rawAddr = .error geocodeFailErr) := by
  refine ⟨?_, ?_, ?_⟩
  · intro env rawAddr p locs best h1 h2 h3 h4
    simp [geocode_address_to_xy, h1, h2, h3, h4]
  · intro env rawAddr p h1 h2
    simp [geocode_address_to_xy, h1, h2, pick_best_location]
  · intro env rawAddr hsugg
    have hkw : ∀ kw0, tryKeyword env rawAddr kw0 = .ok none := by
      intro kw0
      unfold tryKeyword tryOneSuggest
      by_cases h : (pyStrip kw0).length < 2 <;>
        simp [h, hsugg, pick_best_location]
    simp [suggestPhase, hkw]

/-- Witness for C4's amended behaviour: the counterexample environment
instantiates the hard-fail clause, an all-empty environment instantiates the
exhaustion clause. -/
theorem C4_postal_branch_behaviour_witness :
    geocode_address_to_xy envPostalBad addrC4 = .error postalCoordErr ∧
    suggestPhase ⟨fun _ => .ok [], fun _ _ => .ok [], fun _ _ => .ok []⟩ addrC4 =
      .error geocodeFailErr :=
  ⟨C4_postal_branch_behaviour.1 envPostalBad addrC4 "9800021".data [locNoXY] locNoXY
    rfl rfl rfl rfl,
   C4_postal_branch_behaviour.2.2 ⟨fun _ => .ok [], fun _ _ => .ok [], fun _ _ => .ok []⟩
    addrC4 (fun _ _ => rfl)⟩

/-- Decidable equality for Except values (used to evaluate concrete runs). -/
instance {e a : Type} [DecidableEq e] [DecidableEq a] : DecidableEq (Except e a) := fun x y =>
  match x, y with
  | .error e1, .error e2 => decidable_of_iff (e1 = e2) (by simp)
  | .error _, .ok _ => isFalse (by intro h; cases h)
  | .ok _, .error _ => isFalse (by intro h; cases h)
  | .ok a1, .ok a2 => decidable_of_iff (a1 = a2) (by simp)

/-! ## Sorting infrastructure lemmas -/

/-- pyInsert is Mathlib's orderedInsert for the Bool comparator's relation. -/
theorem pyInsert_eq_orderedInsert {α : Type} (le : α → α → Bool) (a : α) (l : List α) :
    pyInsert le a l = List.orderedInsert (fun x y => le x y = true) a l := by
  induction l with
  | nil => rfl
  | cons b bs ih =>
    rw [pyInsert, List.orderedInsert]
    by_cases h : le a b = true
    · simp [h]
    · simp [h, ih]

/-- pySort is Mathlib's insertionSort for the Bool comparator's relation. -/
theorem pySort_eq_insertionSort {α : Type} (le : α → α → Bool) (l : List α) :
    pySort le l = List.insertionSort (fun x y => le x y = true) l := by
  induction l with
  | nil => rfl
  | cons a as ih => rw [pySort, List.insertionSort, ih, pyInsert_eq_orderedInsert]

/-- pySort permutes its input. -/
theorem pySort_perm {α : Type} (le : α → α → Bool) (l : List α) :
    (pySort le l).Perm l := by
  rw [pySort_eq_insertionSort]
  exact List.perm_insertionSort _ l

/-- Membership is preserved by pySort. -/
theorem mem_pySort {α : Type} (le : α → α → Bool) {a : α} {l : List α} :
    a ∈ pySort le l ↔ a ∈ l :=
  (pySort_perm le l).mem_iff

/-- pySort sorts, for a total and transitive comparator. -/
theorem pySort_pairwise {α : Type} (le : α → α → Bool)
    (htotal : ∀ a b, le a b = true ∨ le b a = true)
    (htrans : ∀ a b c, le a b = true → le b c = true → le a c = true)
    (l : List α) : (pySort le l).Pairwise (fun a b => le a b = true) := by
  rw [pySort_eq_insertionSort]
  haveI : IsTotal α (fun x y => le x y = true) := ⟨htotal⟩
  haveI : IsTrans α (fun x y => le x y = true) := ⟨htrans⟩
  exact List.sorted_insertionSort _ l

/-- strLe is total. -/
theorem strLe_total : ∀ a b : Str, strLe a b = true ∨ strLe b a = true := by
  intro a
  induction a with
  | nil => intro b; left; rfl
  | cons ca as ih =>
    intro b
    cases b with
    | nil => right; rfl
    | cons cb bs =>
      rw [strLe, strLe]
      by_cases h1 : ca.toNat < cb.toNat
      · left; simp [h1]
      · by_cases h2 : ca.toNat = cb.toNat
        · rcases ih bs with h | h
          · left; simp [h1, h2, h]
          · right; simp [h2, h]
        · right
          have : cb.toNat < ca.toNat := by omega
          simp [this]

/-- strLe is transitive. -/
theorem strLe_trans : ∀ a b c : Str, strLe a b = true → strLe b c = true → strLe a c = true := by
  intro a
  induction a with
  | nil => intro b c _ _; rfl
  | cons ca as ih =>
    intro b c hab hbc
    cases b with
    | nil => rw [strLe] at hab; exact absurd hab (by simp)
    | cons cb bs =>
      cases c with
      | nil => rw [strLe] at hbc; exact absurd hbc (by simp)
      | cons cc cs =>
        rw [strLe] at hab hbc ⊢
        by_cases h1 : ca.toNat < cb.toNat <;> by_cases h2 : cb.toNat < cc.toNat
        · simp [show ca.toNat < cc.toNat by omega]
        · simp [h1] at hab
          by_cases h3 : cb.toNat = cc.toNat
          · simp [show ca.toNat < cc.toNat by omega]
          · simp [h2, h3] at hbc
        · simp [h1] at hab
          by_cases h3 : ca.toNat = cb.toNat
          · simp [show ca.toNat < cc.toNat by omega]
          · simp [h3] at hab
        · by_cases h3 : ca.toNat = cb.toNat <;> by_cases h4 : cb.toNat = cc.toNat
          · simp [h1, h3] at hab
            simp [h2, h4] at hbc
            simp [show ¬ ca.toNat < cc.toNat by omega, show ca.toNat = cc.toNat by omega]
            exact ih bs cs hab hbc
          · simp [h2, h4] at hbc
          · simp [h1, h3] at hab
          · simp [h1, h3] at hab

/-- resLe is total. -/
theorem resLe_total : ∀ a b : StationResult, resLe a b = true ∨ resLe b a = true := by
  intro a b
  rw [resLe, resLe]
  by_cases h1 : a.walk_minutes < b.walk_minutes
  · left; simp [h1]
  · by_cases h2 : a.walk_minutes = b.walk_minutes
    · by_cases h3 : a.distance_m < b.distance_m
      · left; simp [h1, h2, h3]
      · by_cases h4 : a.distance_m = b.distance_m
        · rcases strLe_total a.station_name b.station_name with h | h
          · left; simp [h1, h2, h3, h4, h]
          · right; simp [h2, h4, h]
        · right
          simp [show ¬ b.walk_minutes < a.walk_minutes by omega, h2.symm,
                show b.distance_m < a.distance_m by omega]
    · right
      simp [show b.walk_minutes < a.walk_minutes by omega]

/-- resLe is transitive. -/
theorem resLe_trans : ∀ a b c : StationResult,
    resLe a b = true → resLe b c = true → resLe a c = true := by
  intro a b c hab hbc
  rw [resLe] at hab hbc ⊢
  by_cases h1 : a.walk_minutes < b.walk_minutes
  · by_cases h2 : b.walk_minutes < c.walk_minutes
    · simp [show a.walk_minutes < c.walk_minutes by omega]
    · simp [h2] at hbc
      by_cases h3 : b.walk_minutes = c.walk_minutes
      · simp [show a.walk_minutes < c.walk_minutes by omega]
      · simp [h3] at hbc
  · simp [h1] at hab
    by_cases h3 : a.walk_minutes = b.walk_minutes
    · simp [h3] at hab
      by_cases h2 : b.walk_minutes < c.walk_minutes
      · simp [show a.walk_minutes < c.walk_minutes by omega]
      · simp [h2] at hbc
        by_cases h4 : b.walk_minutes = c.walk_minutes
        · simp [h4] at hbc
          simp [show ¬ a.walk_minutes < c.walk_minutes by omega,
                show a.walk_minutes = c.walk_minutes by omega]
          by_cases h5 : a.distance_m < b.distance_m
          · by_cases h6 : b.distance_m < c.distance_m
            · simp [show a.distance_m < c.distance_m by omega]
            · simp [h6] at hbc
              by_cases h7 : b.distance_m = c.distance_m
              · simp [show a.distance_m < c.distance_m by omega]
              · simp [h7] at hbc
          · simp [h5] at hab
            by_cases h7 : a.distance_m = b.distance_m
            · simp [h7] at hab
              by_cases h6 : b.distance_m < c.distance_m
              · simp [show a.distance_m < c.distance_m by omega]
              · simp [h6] at hbc
                by_cases h8 : b.distance_m = c.distance_m
                · simp [h8] at hbc
                  simp [show ¬ a.distance_m < c.distance_m by omega,
                        show a.distance_m = c.distance_m by omega]
                  exact strLe_trans _ _ _ hab hbc
                · simp [h8] at hbc
            · simp [h7] at hab
        · simp [h4] at hbc
    · simp [h3] at hab

/-! ## Aggregation invariants -/

/-- Upserting either keeps the key list or appends the fresh key. -/
theorem upsertGroup_keys (key : Str × Str) (line : Str) (d : PyFloat) :
    ∀ gs : List ((Str × Str) × StationGroup),
      (upsertGroup key line d gs).map Prod.fst =
        if key ∈ gs.map Prod.fst then gs.map Prod.fst else gs.map Prod.fst ++ [key] := by
  intro gs
  induction gs with
  | nil => simp [upsertGroup]
  | cons kg rest ih =>
    rw [upsertGroup]
    by_cases h : kg.1 = key
    · simp [h]
    · have h' : ¬ key = kg.1 := fun hh => h hh.symm
      by_cases hmem : key ∈ rest.map Prod.fst
      · simp [h, h', hmem, ih]
      · simp [h, h', hmem, ih]

/-- Upserting preserves key uniqueness. -/
theorem upsertGroup_nodup (key : Str × Str) (line : Str) (d : PyFloat)
    (gs : List ((Str × Str) × StationGroup)) (h : (gs.map Prod.fst).Nodup) :
    ((upsertGroup key line d gs).map Prod.fst).Nodup := by
  rw [upsertGroup_keys]
  by_cases hmem : key ∈ gs.map Prod.fst
  · simpa [hmem] using h
  · simp only [hmem, if_false]
    rw [List.nodup_append]
    exact ⟨h, List.nodup_singleton key, by simpa using hmem⟩

/-- One grouping step preserves key uniqueness. -/
theorem recordStep_nodup (acc : List ((Str × Str) × StationGroup)) (r : RawStation)
    (h : (acc.map Prod.fst).Nodup) : ((recordStep acc r).map Prod.fst).Nodup := by
  rw [recordStep]
  cases r.name with
  | none => exact h
  | some nm =>
    simp only
    by_cases hdrop : nm = [] ∨ (match r.line with
                                | none => []
                                | some l => normalize_line_name l) = []
    · simpa [hdrop] using h
    · simp only [hdrop, if_false]
      cases parse_distance_to_meters r.distance with
      | none => exact h
      | some d => exact upsertGroup_nodup _ _ _ _ h

/-- The grouping fold preserves key uniqueness from any accumulator. -/
theorem groupedFold_nodup (records : List RawStation) :
    ∀ acc : List ((Str × Str) × StationGroup), (acc.map Prod.fst).Nodup →
      ((records.foldl recordStep acc).map Prod.fst).Nodup := by
  induction records with
  | nil => intro acc h; simpa using h
  | cons r rs ih =>
    intro acc h
    rw [List.foldl_cons]
    exact ih _ (recordStep_nodup acc r h)

/-- The grouping dict never holds two entries with the same
(station name, prefecture) key. -/
theorem groupedList_nodup (records : List RawStation) :
    ((groupedList records).map Prod.fst).Nodup := by
  have h := groupedFold_nodup records [] (by simp)
  exact h

/-- The emitted keyed results form a key-subsequence of the groups. -/
theorem emitKeyed_keys_sublist (limit : Int) (gs : List ((Str × Str) × StationGroup)) :
    ((emitKeyed limit gs).map Prod.fst).Sublist (gs.map Prod.fst) := by
  induction gs with
  | nil => simp [emitKeyed]
  | cons kg rest ih =>
    rw [emitKeyed, List.filterMap_cons]
    by_cases h : pyRound kg.2.minDist ≤ limit
    · simp only [h, if_true]
      exact List.Sublist.cons₂ _ (by simpa [emitKeyed] using ih)
    · simp only [h, if_false]
      exact List.Sublist.cons _ (by simpa [emitKeyed] using ih)

/-- Every emitted result's rounded distance is within the walking budget. -/
theorem emitKeyed_dist_le (limit : Int) (gs : List ((Str × Str) × StationGroup)) :
    ∀ p ∈ emitKeyed limit gs, p.2.distance_m ≤ limit := by
  intro p hp
  rw [emitKeyed, List.mem_filterMap] at hp
  obtain ⟨kg, _, heq⟩ := hp
  by_cases h : pyRound kg.2.minDist ≤ limit
  · simp only [h, if_true, Option.some_inj] at heq
    rw [← heq]
    exact h
  · simp [h] at heq

/-- pySlice always yields a subset. -/
theorem pySlice_subset {α : Type} (n : Int) (l : List α) : pySlice n l ⊆ l := by
  rw [pySlice]
  by_cases h : 0 ≤ n
  · simp only [h, if_true]; exact List.take_subset _ _
  · simp only [h, if_false]; exact List.take_subset _ _

/-- Every result of the aggregation comes from an emitted keyed entry. -/
theorem aggregate_mem_emitted (records : List RawStation) (mw mc : Int)
    (st : StationResult) (hst : st ∈ aggregateStations records mw mc) :
    st ∈ (emitKeyed (mw * WALK_METERS_PER_MIN) (groupedList records)).map Prod.snd := by
  rw [aggregateStations] at hst
  exact (mem_pySort resLe).mp (pySlice_subset _ _ hst)

/-- C1: for every list of raw station records and positive bounds, the
aggregation in find_walkable_stations never emits two StationResults with the
same (station_name, prefecture) identity — the emitted entries' keys are
duplicate-free — and every emitted StationResult's distance_m is at most
max_walk_min * 80. -/
theorem C1_identity_unique_and_distance_bounded (records : List RawStation)
    (mw mc : Int) (hmw : 0 < mw) (hmc : 0 < mc) :
    ((emitKeyed (mw * WALK_METERS_PER_MIN) (groupedList records)).map Prod.fst).Nodup ∧
    ∀ st ∈ aggregateStations records mw mc, st.distance_m ≤ mw * WALK_METERS_PER_MIN := by
  constructor
  · exact (groupedList_nodup records).sublist (emitKeyed_keys_sublist _ _)
  · intro st hst
    have h := aggregate_mem_emitted records mw mc st hst
    rw [List.mem_map] at h
    obtain ⟨p, hp, heq⟩ := h
    rw [← heq]
    exact emitKeyed_dist_le _ _ p hp

/-- Witness for C1 at a concrete record list and bounds. -/
theorem C1_identity_unique_and_distance_bounded_witness :
    ((emitKeyed (30 * WALK_METERS_PER_MIN)
        (groupedList [⟨some "長町".data, some "宮城県".data, some "南北線".data, .str "320m".data⟩])).map
        Prod.fst).Nodup ∧
    (⟨"長町".data, ["南北線".data], 4, 320⟩ : StationResult).distance_m ≤
      30 * WALK_METERS_PER_MIN :=
  ⟨(C1_identity_unique_and_distance_bounded
      [⟨some "長町".data, some "宮城県".data, some "南北線".data, .str "320m".data⟩] 30 3
      (by norm_num) (by norm_num)).1,
   (C1_identity_unique_and_distance_bounded
      [⟨some "長町".data, some "宮城県".data, some "南北線".data, .str "320m".data⟩] 30 3
      (by norm_num) (by norm_num)).2 _ (by decide)⟩

/-! ## C8: sign of emitted distances and walk times -/

/-- A well-formed nonnegative exact float. -/
def PFNonneg (q : PyFloat) : Prop := 0 ≤ q.num ∧ 0 < q.den

/-- A distance value whose numeric form (if any) is nonnegative; string and
absent distances are unrestricted. -/
def nonNegNumeric (dv : DistanceValue) : Prop :=
  match dv with
  | .num m _ => 0 ≤ m
  | _ => True

/-- Parsed distances of nonnegative-numeric values are nonnegative (string
distances always are: the regex admits no sign). -/
theorem parse_nonneg (dv : DistanceValue) (q : PyFloat)
    (hq : parse_distance_to_meters dv = some q) (hnn : nonNegNumeric dv) : PFNonneg q := by
  cases dv with
  | null => simp [parse_distance_to_meters] at hq
  | num m e =>
    simp only [parse_distance_to_meters, Option.some_inj] at hq
    rw [← hq]
    exact ⟨hnn, pow_pos (by norm_num) e⟩
  | str s =>
    simp only [parse_distance_to_meters] at hq
    split at hq
    · exact absurd hq (by simp)
    · split at hq <;>
        (rw [Option.some_inj] at hq; rw [← hq]; constructor)
      · exact mul_nonneg (Int.natCast_nonneg _) (by norm_num)
      · exact pow_pos (by norm_num) _
      · exact Int.natCast_nonneg _
      · exact pow_pos (by norm_num) _

/-- pyMin preserves nonnegativity. -/
theorem pyMin_nonneg {a b : PyFloat} (ha : PFNonneg a) (hb : PFNonneg b) :
    PFNonneg (pyMin a b) := by
  rw [pyMin]; split
  · exact hb
  · exact ha

/-- Upserting with a nonnegative distance keeps all group minima nonnegative. -/
theorem upsertGroup_minDist_nonneg (key : Str × Str) (line : Str) (d : PyFloat)
    (hd : PFNonneg d) :
    ∀ gs : List ((Str × Str) × StationGroup),
      (∀ kg ∈ gs, PFNonneg kg.2.minDist) →
      ∀ kg ∈ upsertGroup key line d gs, PFNonneg kg.2.minDist := by
  intro gs
  induction gs with
  | nil =>
    intro _ kg hkg
    rw [upsertGroup] at hkg
    simp only [List.mem_singleton] at hkg
    rw [hkg]
    exact hd
  | cons kg0 rest ih =>
    intro hall kg hkg
    rw [upsertGroup] at hkg
    by_cases h : kg0.1 = key
    · rw [if_pos h] at hkg
      rcases List.mem_cons.mp hkg with hkg | hkg
      · rw [hkg]
        exact pyMin_nonneg (hall kg0 (List.mem_cons_self _ _)) hd
      · exact hall kg (List.mem_cons_of_mem _ hkg)
    · rw [if_neg h] at hkg
      rcases List.mem_cons.mp hkg with hkg | hkg
      · rw [hkg]; exact hall kg0 (List.mem_cons_self _ _)
      · exact ih (fun e he => hall e (List.mem_cons_of_mem _ he)) kg hkg

/-- One grouping step keeps all group minima nonnegative, given the record's
distance is not a negative numeric. -/
theorem recordStep_minDist_nonneg (acc : List ((Str × Str) × StationGroup))
    (r : RawStation) (hr : nonNegNumeric r.distance)
    (hacc : ∀ kg ∈ acc, PFNonneg kg.2.minDist) :
    ∀ kg ∈ recordStep acc r, PFNonneg kg.2.minDist := by
  rw [recordStep]
  cases r.name with
  | none => exact hacc
  | some nm =>
    simp only
    by_cases hdrop : nm = [] ∨ (match r.line with
                                | none => []
                                | some l => normalize_line_name l) = []
    · simpa [hdrop] using hacc
    · simp only [hdrop, if_false]
      cases hd : parse_distance_to_meters r.distance with
      | none => exact hacc
      | some d => exact upsertGroup_minDist_nonneg _ _ _ (parse_nonneg _ _ hd hr) acc hacc

/-- All group minima after the whole loop are nonnegative. -/
theorem groupedList_minDist_nonneg (records : List RawStation)
    (h : ∀ r ∈ records, nonNegNumeric r.distance) :
    ∀ kg ∈ groupedList records, PFNonneg kg.2.minDist := by
  rw [groupedList]
  suffices hgen : ∀ acc : List ((Str × Str) × StationGroup),
      (∀ kg ∈ acc, PFNonneg kg.2.minDist) →
      ∀ kg ∈ records.foldl recordStep acc, PFNonneg kg.2.minDist by
    exact hgen [] (by simp)
  induction records with
  | nil => intro acc hacc; simpa using hacc
  | cons r rs ih =>
    intro acc hacc
    rw [List.foldl_cons]
    exact ih (fun e he => h e (List.mem_cons_of_mem _ he))
      _ (recordStep_minDist_nonneg acc r (h r (List.mem_cons_self _ _)) hacc)

/-- Python round of a nonnegative float is nonnegative. -/
theorem pyRound_nonneg (x : PyFloat) (hx : PFNonneg x) : 0 ≤ pyRound x := by
  have hq : 0 ≤ x.num.fdiv (x.den : Int) :=
    Int.fdiv_nonneg hx.1 (Int.natCast_nonneg _)
  simp only [pyRound]
  split
  · exact hq
  · split
    · omega
    · split <;> omega

/-- Ceiling division of a nonnegative integer by a positive one is
nonnegative. -/
theorem ceilDiv_nonneg (a b : Int) (ha : 0 ≤ a) (hb : 0 < b) : 0 ≤ ceilDiv a b := by
  rw [ceilDiv]
  rcases eq_or_lt_of_le ha with h | h
  · rw [← h]
    simp
  · have hneg : (-a).fdiv b < 0 := Int.fdiv_neg' (by omega) hb
    omega

/-- C8 (amended): for every record list whose distance values are either
strings, absent, or nonnegative native numerics, every StationResult emitted
by the aggregation satisfies walk_minutes >= 0 and distance_m >= 0. -/
theorem C8_results_nonneg (records : List RawStation) (mw mc : Int)
    (h : ∀ r ∈ records, nonNegNumeric r.distance) :
    ∀ st ∈ aggregateStations records mw mc,
      0 ≤ st.walk_minutes ∧ 0 ≤ st.distance_m := by
  intro st hst
  have hmem := aggregate_mem_emitted records mw mc st hst
  rw [List.mem_map] at hmem
  obtain ⟨p, hp, heq⟩ := hmem
  rw [emitKeyed, List.mem_filterMap] at hp
  obtain ⟨kg, hkg, hemit⟩ := hp
  have hnn : PFNonneg kg.2.minDist := groupedList_minDist_nonneg records h kg hkg
  by_cases hd : pyRound kg.2.minDist ≤ mw * WALK_METERS_PER_MIN
  · simp only [hd, if_true, Option.some_inj] at hemit
    rw [← heq, ← hemit]
    have h1 : 0 ≤ pyRound kg.2.minDist := pyRound_nonneg _ hnn
    exact ⟨ceilDiv_nonneg _ _ h1 (by norm_num [WALK_METERS_PER_MIN]), h1⟩
  · simp [hd] at hemit

/-- Witness for C8 at a concrete record with a string distance, evaluated at
its emitted result. -/
theorem C8_results_nonneg_witness :
    0 ≤ (⟨"長町".data, ["南北線".data], 4, 320⟩ : StationResult).walk_minutes ∧
    0 ≤ (⟨"長町".data, ["南北線".data], 4, 320⟩ : StationResult).distance_m :=
  C8_results_nonneg
    [⟨some "長町".data, some "宮城県".data, some "南北線".data, .str "320m".data⟩] 30 3
    (by
      intro r hr
      simp only [List.mem_singleton] at hr
      rw [hr]
      trivial)
    _ (by decide)

/-- C8 counterexample: a raw record whose distance is the native numeric
-100 is accepted by the pipeline (float() applies no sign check and -100 is
within every walking budget), producing walk_minutes = -1 and
distance_m = -100, both negative. -/
theorem C8_negative_native_distance_counterexample :
    (aggregateStations [⟨some "X".data, none, some "京王線".data, .num (-100) 0⟩] 30 3).map
      (fun st => (st.walk_minutes, st.distance_m)) = [(-1, -100)] := by decide

/-! ## C3: ordering and truncation -/

/-- pySlice always yields a sublist. -/
theorem pySlice_sublist {α : Type} (n : Int) (l : List α) : (pySlice n l).Sublist l := by
  rw [pySlice]
  split
  · exact List.take_sublist _ _
  · exact List.take_sublist _ _

/-- The aggregation's output is sorted by (walk_minutes, distance_m,
station_name), ascending. -/
theorem aggregate_sorted (records : List RawStation) (mw mc : Int) :
    (aggregateStations records mw mc).Pairwise (fun a b => resLe a b = true) := by
  rw [aggregateStations]
  exact (pySort_pairwise resLe resLe_total resLe_trans _).sublist (pySlice_sublist _ _)

/-- The aggregation's output is no longer than the (nonnegative) candidate
bound. -/
theorem aggregate_length_le (records : List RawStation) (mw mc : Int) (hmc : 0 ≤ mc) :
    (aggregateStations records mw mc).length ≤ mc.toNat := by
  rw [aggregateStations, pySlice, if_pos hmc]
  exact (List.length_take _ _).trans_le (by simp)

/-- The five qualifying stations of the C3 scenario. -/
def recs5C3 : List RawStation :=
  [⟨some "A".data, some "東京都".data, some "山手線".data, .str "100".data⟩,
   ⟨some "B".data, some "東京都".data, some "山手線".data, .str "200".data⟩,
   ⟨some "C".data, some "東京都".data, some "山手線".data, .str "300".data⟩,
   ⟨some "D".data, some "東京都".data, some "山手線".data, .str "400".data⟩,
   ⟨some "E".data, some "東京都".data, some "山手線".data, .str "500".data⟩]

/-- An environment serving those five stations via the keyword path. -/
def env5C3 : Env :=
  ⟨fun _ => .ok [], fun _ _ => .ok [⟨none, none, none, none, .val 139 0, .val 35 0⟩],
   fun _ _ => .ok recs5C3⟩

/-- C3: whenever find_walkable_stations succeeds, its result is sorted
ascending by (walk_minutes, distance_m, station_name) and no longer than
max_candidates; and in the concrete scenario with max_walk_min = 30,
max_candidates = 3 and five qualifying stations, the output has length
exactly 3. -/
theorem C3_sorted_and_truncated :
    (∀ (env : Env) (rawAddr : Str) (mw mc : Int) (res : List StationResult),
      find_walkable_stations env rawAddr mw mc = .ok res →
      res.Pairwise (fun a b => resLe a b = true) ∧ res.length ≤ mc.toNat) ∧
    (find_walkable_stations env5C3 "東京タワー".data 30 3 =
      .ok [⟨"A".data, ["山手線".data], 2, 100⟩,
           ⟨"B".data, ["山手線".data], 3, 200⟩,
           ⟨"C".data, ["山手線".data], 4, 300⟩] ∧
      ([⟨"A".data, ["山手線".data], 2, 100⟩,
        ⟨"B".data, ["山手線".data], 3, 200⟩,
        ⟨"C".data, ["山手線".data], 4, 300⟩] : List StationResult).length = 3) := by
  constructor
  · intro env rawAddr mw mc res h
    rw [find_walkable_stations] at h
    by_cases h1 : pyStrip rawAddr = []
    · rw [if_pos h1] at h; cases h
    rw [if_neg h1] at h
    by_cases h2 : mw ≤ 0
    · rw [if_pos h2] at h; cases h
    rw [if_neg h2] at h
    by_cases h3 : mc ≤ 0
    · rw [if_pos h3] at h; cases h
    rw [if_neg h3] at h
    cases hg : geocode_address_to_xy env rawAddr with
    | error e => rw [hg] at h; cases h
    | ok xy =>
      rw [hg] at h
      obtain ⟨x, y⟩ := xy
      dsimp only at h
      cases hs : env.stations x y with
      | error e => rw [hs] at h; cases h
      | ok raw =>
        rw [hs] at h
        simp only [Except.ok.injEq] at h
        rw [← h]
        exact ⟨aggregate_sorted raw mw mc, aggregate_length_le raw mw mc (by omega)⟩
  · exact ⟨by decide, rfl⟩

/-- Witness for C3's universal clause at the concrete scenario. -/
theorem C3_sorted_and_truncated_witness :
    ([⟨"A".data, ["山手線".data], 2, 100⟩,
      ⟨"B".data, ["山手線".data], 3, 200⟩,
      ⟨"C".data, ["山手線".data], 4, 300⟩] : List StationResult).Pairwise
        (fun a b => resLe a b = true) ∧
    ([⟨"A".data, ["山手線".data], 2, 100⟩,
      ⟨"B".data, ["山手線".data], 3, 200⟩,
      ⟨"C".data, ["山手線".data], 4, 300⟩] : List StationResult).length ≤ (3 : Int).toNat :=
  C3_sorted_and_truncated.1 env5C3 "東京タワー".data 30 3 _ (by decide)

/-- C2: two raw records for the same station and prefecture, one at 150 m on
line A and one at 90 m on line B (names and normalized lines non-empty, lines
distinct), aggregate to exactly one StationResult whose lines are the sorted
pair {A, B}, whose distance_m is 90 and whose walk_minutes is
ceil(90 / 80) = 2. -/
theorem C2_merge_two_records (name pref A B : Str)
    (hname : name ≠ []) (hA : normalize_line_name A = A) (hA0 : A ≠ [])
    (hB : normalize_line_name B = B) (hB0 : B ≠ []) (hAB : A ≠ B) :
    aggregateStations
      [⟨some name, some pref, some A, .num 150 0⟩,
       ⟨some name, some pref, some B, .num 90 0⟩] 30 3 =
      [⟨name, pySort strLe [A, B], 2, 90⟩] := by
  have hBA : B ≠ A := fun h => hAB h.symm
  have hmin : pyMin ⟨150, 1⟩ ⟨90, 1⟩ = ⟨90, 1⟩ := by decide
  have hround : pyRound ⟨90, 1⟩ = 90 := by decide
  have hceil : ceilDiv 90 WALK_METERS_PER_MIN = 2 := by decide
  simp only [aggregateStations, groupedList, List.foldl_cons, List.foldl_nil, recordStep,
    parse_distance_to_meters, pow_zero, Option.getD, hA, hB, hname, hA0, hB0,
    ne_eq, false_or, or_false, if_false, upsertGroup, insertLine, hBA,
    List.mem_singleton, if_true, hmin, emitKeyed, List.filterMap, hround, hceil,
    List.map, pySort, pyInsert, pySlice]
  norm_num

/-- Witness for C2 at concrete station and line names. -/
theorem C2_merge_two_records_witness :
    aggregateStations
      [⟨some "長町".data, some "宮城県".data, some "JR東北本線".data, .num 150 0⟩,
       ⟨some "長町".data, some "宮城県".data, some "地下鉄南北線".data, .num 90 0⟩] 30 3 =
      [⟨"長町".data, pySort strLe ["JR東北本線".data, "地下鉄南北線".data], 2, 90⟩] :=
  C2_merge_two_records "長町".data "宮城県".data "JR東北本線".data "地下鉄南北線".data
    (by decide) (by decide) (by decide) (by decide) (by decide) (by decide)

/-! ## C7: idempotence analysis of normalize_line_name -/

/-- containsSub decides the infix relation. -/
theorem containsSub_infix_iff (sub : Str) : ∀ s : Str, containsSub sub s = true ↔ sub <:+: s := by
  intro s
  induction s with
  | nil =>
    rw [containsSub, List.isPrefixOf_iff_prefix]
    constructor
    · exact fun h => h.isInfix
    · intro h
      rcases h with ⟨p, q, hpq⟩
      rcases List.append_eq_nil.mp hpq with ⟨h1, _⟩
      rcases List.append_eq_nil.mp h1 with ⟨_, h3⟩
      rw [h3]
  | cons c cs ih =>
    rw [containsSub, Bool.or_eq_true, List.isPrefixOf_iff_prefix, ih, List.infix_cons_iff]

/-- A string containing none of the occurrences of the key is left unchanged
by the fueled replacement. -/
theorem replaceAllF_of_not_contains (key val : Str) :
    ∀ (fuel : Nat) (s : Str), containsSub key s = false → replaceAllF key val fuel s = s := by
  intro fuel
  induction fuel with
  | zero => intro s _; cases s <;> rfl
  | succ n ih =>
    intro s h
    cases s with
    | nil => rfl
    | cons c cs =>
      rw [containsSub] at h
      rcases Bool.or_eq_false_iff.mp h with ⟨h1, h2⟩
      cases key with
      | nil => rfl
      | cons k0 ks =>
        show (if (k0 :: ks).isPrefixOf (c :: cs) then
                val ++ replaceAllF (k0 :: ks) val n (cs.drop ks.length)
              else c :: replaceAllF (k0 :: ks) val n cs) = c :: cs
        rw [if_neg (by rw [h1]; exact Bool.false_ne_true)]
        exact congrArg (c :: ·) (ih cs h2)

/-- str.replace is the identity when the key does not occur. -/
theorem replaceAll_of_not_contains (key val s : Str) (h : containsSub key s = false) :
    replaceAll key val s = s :=
  replaceAllF_of_not_contains key val s.length s h

/-- If a marker is contained in the key but not in the text, the key is not
contained in the text. -/
theorem containsSub_false_of_bad {b k t : Str} (hbk : containsSub b k = true)
    (hbt : containsSub b t = false) : containsSub k t = false := by
  cases h : containsSub k t
  · rfl
  · exfalso
    have h1 := (containsSub_infix_iff b k).mp hbk
    have h2 := (containsSub_infix_iff k t).mp h
    have h3 := (containsSub_infix_iff b t).mpr (h1.trans h2)
    rw [hbt] at h3
    exact Bool.false_ne_true h3

/-- The marker substrings: every left-hand side of the three rewrite tables
of normalize_line_name contains one of these. -/
def badSubstrings : List Str :=
  ["市".data, "地下鉄".data, "鉄道".data, "電鉄".data, "軌道".data,
   "交通局".data, "ＪＲ".data, "臨海".data]

/-- A text avoiding all markers avoids every key of a table whose keys all
contain a marker. -/
theorem table_keys_not_contained (tbl : List (Str × Str)) (t : Str)
    (hall : tbl.all (fun kv => badSubstrings.any (fun b => containsSub b kv.1)) = true)
    (hsafe : ∀ b ∈ badSubstrings, containsSub b t = false) :
    ∀ kv ∈ tbl, containsSub kv.1 t = false := by
  intro kv hkv
  obtain ⟨b, hb, hbk⟩ := List.any_eq_true.mp (List.all_eq_true.mp hall kv hkv)
  exact containsSub_false_of_bad hbk (hsafe b hb)

/-- A fold of replacements whose keys never occur is the identity. -/
theorem foldl_replace_id : ∀ (tbl : List (Str × Str)) (t : Str),
    (∀ kv ∈ tbl, containsSub kv.1 t = false) →
    tbl.foldl (fun acc kv => replaceAll kv.1 kv.2 acc) t = t := by
  intro tbl
  induction tbl with
  | nil => intro t _; rfl
  | cons kv rest ih =>
    intro t h
    rw [List.foldl_cons, replaceAll_of_not_contains _ _ _ (h kv (List.mem_cons_self _ _))]
    exact ih t (fun e he => h e (List.mem_cons_of_mem _ he))

/-- The COMMON_REPLACES pass is the identity on marker-free text. -/
theorem applyReplaces_id (t : Str)
    (hsafe : ∀ b ∈ badSubstrings, containsSub b t = false) : applyReplaces t = t :=
  foldl_replace_id COMMON_REPLACES t
    (table_keys_not_contained COMMON_REPLACES t (by decide) hsafe)

/-- Membership gives a singleton substring. -/
theorem containsSub_of_mem {c : Char} : ∀ {s : Str}, c ∈ s → containsSub [c] s = true := by
  intro s
  induction s with
  | nil => intro h; cases h
  | cons d ds ih =>
    intro h
    rw [containsSub, Bool.or_eq_true]
    rcases List.mem_cons.mp h with h | h
    · left
      rw [List.isPrefixOf_iff_prefix, h]
      exact ⟨ds, rfl⟩
    · right; exact ih h

/-- A successful city-line scan means the text contains 市. -/
theorem cityScan_sound : ∀ (s acc : Str) (city rest : Str),
    cityScan acc s = some (city, rest) → '市' ∈ s := by
  intro s
  induction s with
  | nil => intro acc city rest h; cases h
  | cons c cs ih =>
    intro acc city rest h
    rw [cityScan] at h
    by_cases hc : c = '市' ∧ acc ≠ [] ∧ restLine cs = true
    · exact List.mem_cons.mpr (Or.inl hc.1.symm)
    · rw [if_neg hc] at h
      exact List.mem_cons_of_mem c (ih _ city rest h)

/-- City-subway folding is the identity on 市-free text. -/
theorem cityFoldStep_id (t : Str) (h : containsSub ['市'] t = false) : cityFoldStep t = t := by
  rw [cityFoldStep]
  cases hm : cityScan [] t with
  | none => rfl
  | some p =>
    exfalso
    have := containsSub_of_mem (cityScan_sound t [] p.1 p.2 (by rw [hm]))
    rw [h] at this
    exact Bool.false_ne_true this

/-- A verified prefix reassembles the original string. -/
theorem prefix_reassemble (p s : Str) (h : p.isPrefixOf s = true) :
    p ++ s.drop p.length = s := by
  obtain ⟨t, ht⟩ := List.isPrefixOf_iff_prefix.mp h
  rw [← ht, List.drop_left]

/-- The 都営 tidy-up step re-emits its input unchanged. -/
theorem toeiStep_id (s : Str) : toeiStep s = s := by
  rw [toeiStep]
  by_cases h : ("都営".data).isPrefixOf s = true ∧ restLine (s.drop 2) = true
  · rw [if_pos h]
    exact prefix_reassemble "都営".data s h.1
  · rw [if_neg h]

/-- The 東京メトロ tidy-up step re-emits its input unchanged. -/
theorem metroStep_id (s : Str) : metroStep s = s := by
  rw [metroStep]
  by_cases h : ("東京メトロ".data).isPrefixOf s = true ∧ restLine (s.drop 5) = true
  · rw [if_pos h]
    exact prefix_reassemble "東京メトロ".data s h.1
  · rw [if_neg h]

/-- Every split produced by the subway scanner reassembles the input. -/
theorem subwaySplits_sound : ∀ (s acc p r : Str),
    (p, r) ∈ subwaySplits acc s → p ++ r = acc ++ s := by
  intro s
  induction s with
  | nil => intro acc p r h; cases h
  | cons c cs ih =>
    intro acc p r h
    rw [subwaySplits] at h
    rcases List.mem_append.mp h with h | h
    · by_cases hc : ("地下鉄".data).isSuffixOf (acc ++ [c]) = true ∧
          4 ≤ (acc ++ [c]).length ∧ restLine cs = true
      · rw [if_pos hc] at h
        simp only [List.mem_singleton, Prod.mk.injEq] at h
        rw [h.1, h.2]
        simp
      · rw [if_neg hc] at h
        cases h
    · have := ih (acc ++ [c]) p r h
      simpa using this

/-- The generic subway tidy-up step re-emits its input unchanged. -/
theorem subwayStep_id (s : Str) : subwayStep s = s := by
  rw [subwayStep]
  cases hl : (subwaySplits [] s).getLast? with
  | none => rfl
  | some pr =>
    have hmem := List.mem_of_getLast?_eq_some hl
    have := subwaySplits_sound s [] pr.1 pr.2 (by simpa using hmem)
    simpa using this

/-- A table lookup falls through (or maps to itself) on marker-free text,
provided every non-identity key of the table contains a marker. -/
theorem lookup_getD_id (tbl : List (Str × Str)) (t : Str)
    (hall : tbl.all
      (fun kv => (kv.1 == kv.2) || badSubstrings.any (fun b => containsSub b kv.1)) = true)
    (hsafe : ∀ b ∈ badSubstrings, containsSub b t = false) :
    (tbl.lookup t).getD t = t := by
  induction tbl with
  | nil => rfl
  | cons kv rest ih =>
    rw [List.all_cons, Bool.and_eq_true] at hall
    obtain ⟨k, v⟩ := kv
    rw [List.lookup]
    cases hbeq : t == k with
    | false => exact ih hall.2
    | true =>
      simp only [Option.getD_some]
      have ht : t = k := eq_of_beq hbeq
      rcases (Bool.or_eq_true _ _).mp hall.1 with h | h
      · have : k = v := eq_of_beq h
        rw [← this, ht]
      · exfalso
        obtain ⟨b, hb, hbk⟩ := List.any_eq_true.mp h
        have := hsafe b hb
        rw [ht] at this
        rw [this] at hbk
        exact Bool.false_ne_true hbk

/-- The popular-alias fold is the identity on marker-free text. -/
theorem aliasStep_id (t : Str)
    (hsafe : ∀ b ∈ badSubstrings, containsSub b t = false) : aliasStep t = t := by
  rw [aliasStep]
  exact lookup_getD_id POPULAR_LINE_ALIASES t (by decide) hsafe

/-- The final override is the identity on marker-free text. -/
theorem overrideStep_id (t : Str)
    (hsafe : ∀ b ∈ badSubstrings, containsSub b t = false) : overrideStep t = t := by
  rw [overrideStep]
  exact lookup_getD_id LINE_NAME_OVERRIDES t (by decide) hsafe

/-- A successful strip scan means the text contains 市. -/
theorem stripScan_sound : ∀ (s acc : Str) (r : Str),
    stripScan acc s = some r → '市' ∈ s := by
  intro s
  induction s with
  | nil => intro acc r h; cases h
  | cons c cs ih =>
    intro acc r h
    rw [stripScan] at h
    by_cases hc : c = '市' ∧ acc ≠ []
    · exact List.mem_cons.mpr (Or.inl hc.1.symm)
    · rw [if_neg hc] at h
      exact List.mem_cons_of_mem c (ih _ r h)

/-- City-name stripping is the identity on 市-free text. -/
theorem stripCityStep_id (t : Str) (h : containsSub ['市'] t = false) : stripCityStep t = t := by
  rw [stripCityStep]
  cases hm : stripScan [] t with
  | none => rfl
  | some rest =>
    exfalso
    have := containsSub_of_mem (stripScan_sound t [] rest hm)
    rw [h] at this
    exact Bool.false_ne_true this

/-- Core of the amended C7: normalize_line_name fixes every string that is
already width/whitespace-normal and avoids all rule markers. -/
theorem normalize_line_name_fixed (t : Str)
    (h1 : normalize_text t = t) (h2 : collapseWs t = t)
    (hsafe : ∀ b ∈ badSubstrings, containsSub b t = false) :
    normalize_line_name t = t := by
  by_cases h0 : t = []
  · rw [h0]; rfl
  have hshi : containsSub ['市'] t = false := hsafe "市".data (by decide)
  simp only [normalize_line_name, if_neg h0]
  rw [h1, h2, applyReplaces_id t hsafe, cityFoldStep_id t hshi, toeiStep_id, metroStep_id,
    subwayStep_id, aliasStep_id t hsafe, overrideStep_id t hsafe, stripCityStep_id t hshi]

/-- The decidable safety check of the amended C7: the one-pass output is
width/whitespace-normal and contains none of the rule markers, so no rewrite
stage can fire on a second pass. -/
def lineIdemSafe (t : Str) : Bool :=
  (normalize_text t == t) && (collapseWs t == t) &&
    badSubstrings.all (fun b => !(containsSub b t))

/-- C7 counterexample: normalize_line_name is not idempotent.  On
都営地下鉄地下鉄, the first pass's 都営地下鉄 → 都営 replacement (replacing
non-overlapping occurrences left to right) re-creates the key 都営地下鉄
across the splice, and the second pass consumes it: one pass yields
都営地下鉄, two passes yield 都営. -/
theorem C7_not_idempotent_counterexample :
    normalize_line_name (normalize_line_name "都営地下鉄地下鉄".data) ≠
      normalize_line_name "都営地下鉄地下鉄".data := by decide

/-- C7 (amended): normalize_line_name is idempotent at every string whose
one-pass output is width/whitespace-normal and avoids the rule markers
市, 地下鉄, 鉄道, 電鉄, 軌道, 交通局, ＪＲ and 臨海 (every table key and
pattern of the normalizer involves one of these, so the second pass has
nothing left to rewrite); it is not idempotent in general. -/
theorem C7_conditional_idempotence (s : Str)
    (h : lineIdemSafe (normalize_line_name s) = true) :
    normalize_line_name (normalize_line_name s) = normalize_line_name s := by
  rw [lineIdemSafe, Bool.and_eq_true, Bool.and_eq_true] at h
  refine normalize_line_name_fixed _ (eq_of_beq h.1.1) (eq_of_beq h.1.2) ?_
  intro b hb
  have := List.all_eq_true.mp h.2 b hb
  simpa using this

/-- Witness for the amended C7 at a concrete line name. -/
theorem C7_conditional_idempotence_witness :
    normalize_line_name (normalize_line_name "京王線".data) =
      normalize_line_name "京王線".data :=
  C7_conditional_idempotence "京王線".data (by decide)
